import Mathlib

/-!
Verification of the PoW orchestration core (`mlnode/packages/pow`).

Each section embeds the Python source it names; data types and operations
absent from `src/` (the repository ships only their callers and tests) are
modelled from the specification, as marked in their doc comments.
-/

namespace PowSpec

/-! ## Nonce allocation (`pow/compute/utils.py`, `NonceIterator`) -/

/-- Modelled from the spec: `NonceIterator` of `pow/compute/utils.py` is absent
from `src/` (only its callers in `pow/compute/controller.py` and the unit tests
in `tests/unit/test_empty.py` are present).  Per the spec (§4.1) the iterator
for `(node_id, n_nodes, group_id, n_groups)` yields the arithmetic sequence
`nonce_k = node_id + group_id*n_nodes + k*(n_nodes*n_groups)`, which is also
the exact formula asserted by `test_group_vs_device_equivalence`. -/
def nonce (n_nodes n_groups node_id group_id k : ℕ) : ℕ :=
  node_id + group_id * n_nodes + k * (n_nodes * n_groups)

/-- Positional decomposition: a nonce is a mixed-radix numeral. -/
lemma nonce_eq (N G i g k : ℕ) : nonce N G i g k = i + N * (g + G * k) := by
  unfold nonce; ring

/-- Uniqueness of the low digit and the quotient in a mixed-radix numeral. -/
lemma mixed_radix_inj {b i i' a a' : ℕ} (hb : 0 < b) (hi : i < b) (hi' : i' < b)
    (h : i + b * a = i' + b * a') : i = i' ∧ a = a' := by
  have hmod : i = i' := by
    have h1 := congrArg (· % b) h
    simpa [Nat.add_mul_mod_self_left, Nat.mod_eq_of_lt hi, Nat.mod_eq_of_lt hi'] using h1
  refine ⟨hmod, ?_⟩
  apply Nat.eq_of_mul_eq_mul_left hb
  omega

/-- C1: for every `n_nodes ≥ 1`, `n_groups ≥ 1` and every cutoff `K`, the nonce
sequences `nonce_k = node_id + group_id*n_nodes + k*(n_nodes*n_groups)` over all
pairs `(node_id < n_nodes, group_id < n_groups)` are pairwise disjoint (the map
is injective on in-range indices), their first `K` elements all lie below
`K*n_nodes*n_groups`, and every value in `{0, …, K*n_nodes*n_groups − 1}` is hit
by exactly one of them. -/
theorem nonce_partition (n_nodes n_groups : ℕ) (hN : 1 ≤ n_nodes) (hG : 1 ≤ n_groups)
    (K : ℕ) :
    (∀ i g k i' g' k', i < n_nodes → g < n_groups → i' < n_nodes → g' < n_groups →
        nonce n_nodes n_groups i g k = nonce n_nodes n_groups i' g' k' →
        i = i' ∧ g = g' ∧ k = k') ∧
    (∀ i g k, i < n_nodes → g < n_groups → k < K →
        nonce n_nodes n_groups i g k < K * (n_nodes * n_groups)) ∧
    (∀ m, m < K * (n_nodes * n_groups) →
        ∃ i g k, i < n_nodes ∧ g < n_groups ∧ k < K ∧
          nonce n_nodes n_groups i g k = m) := by
  have hN0 : 0 < n_nodes := hN
  have hG0 : 0 < n_groups := hG
  refine ⟨?_, ?_, ?_⟩
  · intro i g k i' g' k' hi hg hi' hg' h
    rw [nonce_eq, nonce_eq] at h
    obtain ⟨h1, h2⟩ := mixed_radix_inj hN0 hi hi' h
    obtain ⟨h3, h4⟩ := mixed_radix_inj hG0 hg hg' h2
    exact ⟨h1, h3, h4⟩
  · intro i g k hi hg hk
    rw [nonce_eq]
    calc i + n_nodes * (g + n_groups * k)
        < n_nodes + n_nodes * (g + n_groups * k) := Nat.add_lt_add_right hi _
      _ = n_nodes * (1 + (g + n_groups * k)) := by ring
      _ ≤ n_nodes * (n_groups + n_groups * k) := mul_le_mul_left' (by omega) n_nodes
      _ = n_nodes * (n_groups * (1 + k)) := by ring
      _ ≤ n_nodes * (n_groups * K) := mul_le_mul_left' (mul_le_mul_left' (by omega) _) _
      _ = K * (n_nodes * n_groups) := by ring
  · intro m hm
    refine ⟨m % n_nodes, (m / n_nodes) % n_groups, (m / n_nodes) / n_groups,
      Nat.mod_lt _ hN0, Nat.mod_lt _ hG0, ?_, ?_⟩
    · have h1 : m / n_nodes < n_groups * K := by
        refine (Nat.div_lt_iff_lt_mul hN0).mpr ?_
        calc m < K * (n_nodes * n_groups) := hm
          _ = n_groups * K * n_nodes := by ring
      refine (Nat.div_lt_iff_lt_mul hG0).mpr ?_
      calc m / n_nodes < n_groups * K := h1
        _ = K * n_groups := by ring
    · rw [nonce_eq, Nat.mod_add_div, Nat.mod_add_div]

/-- Witness for C1 at `n_nodes = 2`, `n_groups = 3`, `K = 5`. -/
theorem nonce_partition_witness :
    1 ≤ 2 ∧ 1 ≤ 3 ∧
    ((∀ i g k i' g' k', i < 2 → g < 3 → i' < 2 → g' < 3 →
        nonce 2 3 i g k = nonce 2 3 i' g' k' → i = i' ∧ g = g' ∧ k = k') ∧
     (∀ i g k, i < 2 → g < 3 → k < 5 → nonce 2 3 i g k < 5 * (2 * 3)) ∧
     (∀ m, m < 5 * (2 * 3) →
        ∃ i g k, i < 2 ∧ g < 3 ∧ k < 5 ∧ nonce 2 3 i g k = m)) :=
  ⟨by decide, by decide, nonce_partition 2 3 (by decide) (by decide) 5⟩

/-! ## ProofBatch algebra (`pow/data.py`) -/

/-- Modelled from the spec: `ProofBatch` of `pow/data.py` is absent from `src/`
(only its consumers — `pow/compute/worker.py`, `pow/service/sender.py`,
`pow/compute/compute.py` — are present).  Per the spec (§3) it carries
`{public_key, block_hash, block_height, node_id, nonces: []int64,
dist: []float64}` with invariant `len(nonces) == len(dist)`; distances are
modelled as exact rationals. -/
structure ProofBatch where
  public_key : String
  block_hash : String
  block_height : ℤ
  node_id : ℤ
  nonces : List ℤ
  dist : List ℚ
  deriving DecidableEq, Repr

/-- Modelled from the spec: `ProofBatch.empty()` (used by
`Sender._get_generated` when the queue is empty) — a batch with no entries and
default metadata. -/
def ProofBatch.empty : ProofBatch :=
  { public_key := "", block_hash := "", block_height := 0, node_id := 0,
    nonces := [], dist := [] }

/-- One chunking step of `ProofBatch.split`: take `n`-element slices of the
nonce and distance lists in lockstep.  The first argument is fuel (the list
length at the top call), making the recursion structural. -/
def splitAux (n : ℕ) (b : ProofBatch) : ℕ → List ℤ → List ℚ → List ProofBatch
  | 0, _, _ => []
  | _, [], _ => []
  | fuel + 1, ns, ds =>
      { b with nonces := ns.take n, dist := ds.take n } ::
        splitAux n b fuel (ns.drop n) (ds.drop n)

/-- Modelled from the spec: `ProofBatch.split(n)` yields chunks of size ≤ `n`
in the original order, each inheriting the batch's metadata (the Python source
slices `nonces[i:i+n]` / `dist[i:i+n]` for `i in range(0, len, n)`); an empty
batch yields itself as its single (empty) chunk. -/
def ProofBatch.split (b : ProofBatch) (n : ℕ) : List ProofBatch :=
  if b.nonces.isEmpty then [b]
  else splitAux n b b.nonces.length b.nonces b.dist

/-- Modelled from the spec: `ProofBatch.merge` concatenates the entries of the
given batches preserving order, taking the metadata from the first batch;
merging the empty list gives `ProofBatch.empty`. -/
def ProofBatch.merge : List ProofBatch → ProofBatch
  | [] => ProofBatch.empty
  | b :: bs =>
      { b with nonces := ((b :: bs).map ProofBatch.nonces).flatten,
               dist := ((b :: bs).map ProofBatch.dist).flatten }

/-- Modelled from the spec: `ProofBatch.sub_batch(r_target)` filters to the
entries with `dist <= r_target`, preserving the nonce/dist pairing. -/
def ProofBatch.sub_batch (b : ProofBatch) (r : ℚ) : ProofBatch :=
  let kept := (b.nonces.zip b.dist).filter (fun p => p.2 ≤ r)
  { b with nonces := kept.map Prod.fst, dist := kept.map Prod.snd }

lemma splitAux_join_nonces (n : ℕ) (b : ProofBatch) :
    ∀ (fuel : ℕ) (ns : List ℤ) (ds : List ℚ), 0 < n → ns.length ≤ fuel →
      ((splitAux n b fuel ns ds).map ProofBatch.nonces).flatten = ns := by
  intro fuel
  induction fuel with
  | zero =>
      intro ns ds hn hf
      have hns : ns = [] := List.eq_nil_of_length_eq_zero (by omega)
      simp [splitAux, hns]
  | succ fuel ih =>
      intro ns ds hn hf
      cases ns with
      | nil => simp [splitAux]
      | cons x xs =>
          have hlen : (List.drop n (x :: xs)).length ≤ fuel := by
            simp only [List.length_drop, List.length_cons]
            simp only [List.length_cons] at hf
            omega
          simp only [splitAux, List.map_cons, List.flatten_cons]
          rw [ih (List.drop n (x :: xs)) (List.drop n ds) hn hlen]
          exact List.take_append_drop n (x :: xs)

lemma splitAux_join_dist (n : ℕ) (b : ProofBatch) :
    ∀ (fuel : ℕ) (ns : List ℤ) (ds : List ℚ), 0 < n → ns.length ≤ fuel →
      ds.length ≤ ns.length →
      ((splitAux n b fuel ns ds).map ProofBatch.dist).flatten = ds := by
  intro fuel
  induction fuel with
  | zero =>
      intro ns ds hn hf hd
      have hds : ds = [] := List.eq_nil_of_length_eq_zero (by omega)
      have hns : ns = [] := List.eq_nil_of_length_eq_zero (by omega)
      simp [splitAux, hns, hds]
  | succ fuel ih =>
      intro ns ds hn hf hd
      cases ns with
      | nil =>
          have hds : ds = [] := List.eq_nil_of_length_eq_zero (by simpa using hd)
          simp [splitAux, hds]
      | cons x xs =>
          have hlen : (List.drop n (x :: xs)).length ≤ fuel := by
            simp only [List.length_drop, List.length_cons]
            simp only [List.length_cons] at hf
            omega
          have hlen2 : (List.drop n ds).length ≤ (List.drop n (x :: xs)).length := by
            simp only [List.length_drop, List.length_cons]
            simp only [List.length_cons] at hd
            omega
          simp only [splitAux, List.map_cons, List.flatten_cons]
          rw [ih (List.drop n (x :: xs)) (List.drop n ds) hn hlen hlen2]
          exact List.take_append_drop n ds

lemma splitAux_mem_len (n : ℕ) (b : ProofBatch) :
    ∀ (fuel : ℕ) (ns : List ℤ) (ds : List ℚ) (c : ProofBatch),
      c ∈ splitAux n b fuel ns ds → c.nonces.length ≤ n ∧ c.dist.length ≤ n := by
  intro fuel
  induction fuel with
  | zero => intro ns ds c hc; simp [splitAux] at hc
  | succ fuel ih =>
      intro ns ds c hc
      cases ns with
      | nil => simp [splitAux] at hc
      | cons x xs =>
          simp only [splitAux, List.mem_cons] at hc
          rcases hc with rfl | hc
          · refine ⟨?_, ?_⟩ <;>
              · rw [List.length_take]
                exact Nat.min_le_left _ _
          · exact ih _ _ _ hc

lemma splitAux_metadata (n : ℕ) (b : ProofBatch) :
    ∀ (fuel : ℕ) (ns : List ℤ) (ds : List ℚ) (c : ProofBatch),
      c ∈ splitAux n b fuel ns ds →
      c.public_key = b.public_key ∧ c.block_hash = b.block_hash ∧
        c.block_height = b.block_height ∧ c.node_id = b.node_id := by
  intro fuel
  induction fuel with
  | zero => intro ns ds c hc; simp [splitAux] at hc
  | succ fuel ih =>
      intro ns ds c hc
      cases ns with
      | nil => simp [splitAux] at hc
      | cons x xs =>
          simp only [splitAux, List.mem_cons] at hc
          rcases hc with rfl | hc
          · exact ⟨rfl, rfl, rfl, rfl⟩
          · exact ih _ _ _ hc

lemma zip_map_fst_snd {α β : Type} (l : List (α × β)) :
    (l.map Prod.fst).zip (l.map Prod.snd) = l := by
  induction l with
  | nil => rfl
  | cons p l ih => cases p; simp [ih]

lemma merge_eq_of (l : List ProofBatch) (b : ProofBatch) (hne : l ≠ [])
    (hmeta : ∀ c ∈ l, c.public_key = b.public_key ∧ c.block_hash = b.block_hash ∧
      c.block_height = b.block_height ∧ c.node_id = b.node_id)
    (hns : (l.map ProofBatch.nonces).flatten = b.nonces)
    (hds : (l.map ProofBatch.dist).flatten = b.dist) :
    ProofBatch.merge l = b := by
  cases l with
  | nil => exact absurd rfl hne
  | cons c rest =>
      obtain ⟨h1, h2, h3, h4⟩ := hmeta c (List.mem_cons_self c rest)
      cases b
      cases c
      simp_all [ProofBatch.merge]

lemma splitAux_ne_nil (n : ℕ) (b : ProofBatch) (fuel : ℕ) (ns : List ℤ) (ds : List ℚ)
    (hfuel : 0 < fuel) (hns : ns ≠ []) : splitAux n b fuel ns ds ≠ [] := by
  cases fuel with
  | zero => omega
  | succ fuel =>
      cases ns with
      | nil => exact absurd rfl hns
      | cons x xs => simp [splitAux]

/-- C3: for every `ProofBatch b` (with its length invariant) and every `n > 0`,
`merge (split b n) = b`; every chunk of `split b n` has at most `n` entries;
the chunks preserve the original entry order (their concatenation is exactly
`b.nonces`); every distance of `sub_batch b r` is `≤ r`; `sub_batch b r` has at
most as many nonces as `b`; and `sub_batch` preserves the nonce/dist pairing
(its zipped entries are exactly the `dist ≤ r` entries of `b`, in order). -/
theorem batch_algebra (b : ProofBatch) (n : ℕ) (hn : 0 < n)
    (hlen : b.dist.length = b.nonces.length) :
    ProofBatch.merge (b.split n) = b ∧
    (∀ c ∈ b.split n, c.nonces.length ≤ n ∧ c.dist.length ≤ n) ∧
    ((b.split n).map ProofBatch.nonces).flatten = b.nonces ∧
    (∀ r : ℚ,
      (∀ d ∈ (b.sub_batch r).dist, d ≤ r) ∧
      (b.sub_batch r).nonces.length ≤ b.nonces.length ∧
      (b.sub_batch r).nonces.zip (b.sub_batch r).dist =
        (b.nonces.zip b.dist).filter (fun p => p.2 ≤ r)) := by
  refine ⟨?_, ?_, ?_, ?_⟩
  · unfold ProofBatch.split
    by_cases hemp : b.nonces.isEmpty
    · have : b.nonces = [] := List.isEmpty_iff.mp hemp
      have hds : b.dist = [] := List.eq_nil_of_length_eq_zero (by rw [hlen, this]; rfl)
      simp only [hemp, if_true]
      exact merge_eq_of [b] b (by simp) (by simp) (by simp [this]) (by simp [hds])
    · simp only [hemp, if_false]
      have hne : b.nonces ≠ [] := fun h => hemp (by simp [h])
      refine merge_eq_of _ b
        (splitAux_ne_nil n b _ _ _ (by simpa [List.length_pos] using hne) hne)
        (fun c hc => splitAux_metadata n b _ _ _ c hc)
        (splitAux_join_nonces n b _ _ _ hn le_rfl)
        (splitAux_join_dist n b _ _ _ hn le_rfl (le_of_eq hlen))
  · intro c hc
    unfold ProofBatch.split at hc
    by_cases hemp : b.nonces.isEmpty
    · have hns : b.nonces = [] := List.isEmpty_iff.mp hemp
      have hds : b.dist = [] := List.eq_nil_of_length_eq_zero (by rw [hlen, hns]; rfl)
      simp only [hemp, if_true, List.mem_singleton] at hc
      subst hc
      simp [hns, hds]
    · simp only [hemp, if_false] at hc
      exact splitAux_mem_len n b _ _ _ c hc
  · unfold ProofBatch.split
    by_cases hemp : b.nonces.isEmpty
    · have hns : b.nonces = [] := List.isEmpty_iff.mp hemp
      simp [hemp, hns]
    · simp only [hemp, if_false]
      exact splitAux_join_nonces n b _ _ _ hn le_rfl
  · intro r
    refine ⟨?_, ?_, ?_⟩
    · intro d hd
      simp only [ProofBatch.sub_batch, List.mem_map] at hd
      obtain ⟨p, hp, rfl⟩ := hd
      exact of_decide_eq_true (List.mem_filter.mp hp).2
    · simp only [ProofBatch.sub_batch, List.length_map]
      calc ((b.nonces.zip b.dist).filter (fun p => p.2 ≤ r)).length
          ≤ (b.nonces.zip b.dist).length := List.length_filter_le _ _
        _ ≤ b.nonces.length := by rw [List.length_zip]; exact Nat.min_le_left _ _
    · simp only [ProofBatch.sub_batch]
      exact zip_map_fst_snd _

/-- A concrete three-entry batch used to witness the batch-algebra claims. -/
def sampleBatch : ProofBatch :=
  { public_key := "pk", block_hash := "bh", block_height := 7, node_id := 1,
    nonces := [3, 1, 2], dist := [1/2, 3, 1/4] }

/-- Witness for C3 at `b = sampleBatch`, `n = 2`. -/
theorem batch_algebra_witness :
    0 < 2 ∧ sampleBatch.dist.length = sampleBatch.nonces.length ∧
    (ProofBatch.merge (sampleBatch.split 2) = sampleBatch ∧
     (∀ c ∈ sampleBatch.split 2, c.nonces.length ≤ 2 ∧ c.dist.length ≤ 2) ∧
     ((sampleBatch.split 2).map ProofBatch.nonces).flatten = sampleBatch.nonces ∧
     (∀ r : ℚ,
       (∀ d ∈ (sampleBatch.sub_batch r).dist, d ≤ r) ∧
       (sampleBatch.sub_batch r).nonces.length ≤ sampleBatch.nonces.length ∧
       (sampleBatch.sub_batch r).nonces.zip (sampleBatch.sub_batch r).dist =
         (sampleBatch.nonces.zip sampleBatch.dist).filter (fun p => p.2 ≤ r))) :=
  ⟨by decide, by decide, batch_algebra sampleBatch 2 (by decide) (by decide)⟩

/-! ## ValidatedBatch reconciliation (`pow/data.py`, used by `Sender._get_validated`) -/

/-- Modelled from the spec: `ValidatedBatch` of `pow/data.py` is absent from
`src/` (only its consumer `Sender._get_validated` in `pow/service/sender.py`
and the integration tests are present).  Per the spec (§3) it is the result of
reconciling a generation-time `ProofBatch` with an independently recomputed one
for the same nonces. -/
structure ValidatedBatch where
  nonces : List ℤ
  dist_generated : List ℚ
  dist_validated : List ℚ
  n_invalid : ℕ
  fraud_detected : Bool
  deriving DecidableEq, Repr

/-- Number of entries whose generation-time claim was valid
(`dist_generated ≤ r_target`) but whose revalidated distance exceeds
`r_target`, walking the two distance lists in lockstep. -/
def fraudCount (r : ℚ) : List ℚ → List ℚ → ℕ
  | dg :: dgs, dv :: dvs =>
      (if dg ≤ r ∧ r < dv then 1 else 0) + fraudCount r dgs dvs
  | _, _ => 0

/-- Modelled from the spec: materializing a `ValidatedBatch` from a
generation-time batch `gen` and the revalidated distances `dv` under
thresholds `r_target` and `fraud_threshold` (§3): `n_invalid` counts the
entries with `dist_validated > r_target`, and `fraud_detected` is set when the
entries that were claimed valid at generation time but fail revalidation make
up more than `fraud_threshold` of the batch. -/
def ValidatedBatch.build (gen : ProofBatch) (dv : List ℚ) (r f : ℚ) :
    ValidatedBatch :=
  { nonces := gen.nonces,
    dist_generated := gen.dist,
    dist_validated := dv,
    n_invalid := dv.countP (fun d => decide (r < d)),
    fraud_detected :=
      decide (f * (gen.nonces.length : ℚ) < (fraudCount r gen.dist dv : ℚ)) }

lemma fraudCount_eq_filter (r : ℚ) (dgs dvs : List ℚ) :
    fraudCount r dgs dvs
      = ((dgs.zip dvs).filter (fun p => decide (p.1 ≤ r ∧ r < p.2))).length := by
  induction dgs generalizing dvs with
  | nil => simp [fraudCount]
  | cons dg dgs ih =>
      cases dvs with
      | nil => simp [fraudCount]
      | cons dv dvs =>
          simp only [fraudCount, List.zip_cons_cons, List.filter_cons]
          by_cases h : dg ≤ r ∧ r < dv
          · simp [h, ih, Nat.add_comm]
          · simp [h, ih]

/-- C2: a `ValidatedBatch` reconciled from a generation-time batch `gen` and
revalidated distances `dv` (nonempty batch) has `n_invalid` equal to the count
of entries with `dist_validated > r_target`, and `fraud_detected` is true
exactly when the entries claimed valid at generation time
(`dist_generated ≤ r_target`) but failing revalidation (`dist > r_target`)
make up more than `fraud_threshold` of the batch. -/
theorem validated_batch_reconciliation (gen : ProofBatch) (dv : List ℚ) (r f : ℚ)
    (hlen : 0 < gen.nonces.length) :
    (ValidatedBatch.build gen dv r f).n_invalid
        = (dv.filter (fun d => decide (r < d))).length ∧
    ((ValidatedBatch.build gen dv r f).fraud_detected = true ↔
      f < (((gen.dist.zip dv).filter
              (fun p => decide (p.1 ≤ r ∧ r < p.2))).length : ℚ)
            / (gen.nonces.length : ℚ)) := by
  constructor
  · simp [ValidatedBatch.build, List.countP_eq_length_filter]
  · have hpos : (0 : ℚ) < (gen.nonces.length : ℚ) := by exact_mod_cast hlen
    rw [ValidatedBatch.build, decide_eq_true_iff, fraudCount_eq_filter,
      lt_div_iff₀ hpos]

/-- Witness for C2 at the spec §8 fraud example: generation claims `dist = 1/10`
(valid for `r_target = 1/2`) but revalidation finds `9/10`, with
`fraud_threshold = 1/5`. -/
theorem validated_batch_reconciliation_witness :
    0 < (ProofBatch.mk "pk" "bh" 7 1 [42] [1/10]).nonces.length ∧
    ((ValidatedBatch.build (ProofBatch.mk "pk" "bh" 7 1 [42] [1/10])
          [9/10] (1/2) (1/5)).n_invalid
        = (([9/10] : List ℚ).filter (fun d => decide ((1:ℚ)/2 < d))).length ∧
     ((ValidatedBatch.build (ProofBatch.mk "pk" "bh" 7 1 [42] [1/10])
          [9/10] (1/2) (1/5)).fraud_detected = true ↔
       (1:ℚ)/5 <
         ((((ProofBatch.mk "pk" "bh" 7 1 [42] [1/10]).dist.zip
                ([9/10] : List ℚ)).filter
              (fun p => decide (p.1 ≤ (1:ℚ)/2 ∧ (1:ℚ)/2 < p.2))).length : ℚ)
           / (((ProofBatch.mk "pk" "bh" 7 1 [42] [1/10]).nonces.length : ℚ)))) :=
  ⟨by decide,
    validated_batch_reconciliation (ProofBatch.mk "pk" "bh" 7 1 [42] [1/10])
      [9/10] (1/2) (1/5) (by decide)⟩

/-! ## Worker phase loop (`pow/compute/worker.py`, `Worker.run`) -/

/-- Modelled from the spec: the shared `Phase` enum of `pow/compute/utils.py`
is absent from `src/`; per the spec (§3) it is `{IDLE, GENERATE, VALIDATE,
STOP}`, read continuously by every Worker. -/
inductive Phase
  | IDLE
  | GENERATE
  | VALIDATE
  | STOP
  deriving DecidableEq, Repr

/-- Observable work a Worker performs in one iteration of its run loop. -/
inductive WorkerAction
  | generate
  | validate
  | idleSleep
  deriving DecidableEq, Repr

/-- One iteration of `Worker.run`'s loop (worker.py lines 73-84): read the
shared Phase cell; `STOP` breaks out of the loop (`none`), `GENERATE` and
`VALIDATE` perform the phase's work, any other value sleeps briefly. -/
def workerLoopStep : Phase → Option WorkerAction
  | .STOP => none
  | .GENERATE => some .generate
  | .VALIDATE => some .validate
  | .IDLE => some .idleSleep

/-- `Worker.run` against the sequence of Phase values it observes, one per
loop iteration: the actions performed, in order, until `STOP` is observed or
the observation sequence ends. -/
def workerRun : List Phase → List WorkerAction
  | [] => []
  | p :: ps =>
      match workerLoopStep p with
      | none => []
      | some a => a :: workerRun ps

/-- Whether `Worker.run` has exited its loop — and therefore executed
`cleanup()`, releasing the compute context (worker.py lines 86-87, 191-192) —
by the end of the observation sequence. -/
def workerExited : List Phase → Bool
  | [] => false
  | p :: ps =>
      match workerLoopStep p with
      | none => true
      | some _ => workerExited ps

/-- C7: `STOP` is terminal for the Worker loop.  Whatever Phase values `qs`
are written to the shared cell after a Worker observes `STOP`, the Worker
performs exactly the actions it would have performed had the sequence ended at
that `STOP` — it never resumes generating or validating — and it has exited
its run loop (releasing its compute resources). -/
theorem worker_stop_terminal (ps qs : List Phase) :
    workerRun (ps ++ Phase.STOP :: qs) = workerRun (ps ++ [Phase.STOP]) ∧
    workerExited (ps ++ Phase.STOP :: qs) = true := by
  induction ps with
  | nil => exact ⟨rfl, rfl⟩
  | cons p ps ih =>
      cases p <;>
        simp [workerRun, workerExited, workerLoopStep, ih.1, ih.2]

/-! ## Sender retry buffering (`pow/service/sender.py`) -/

/-- `Sender._send_generated` / `Sender._send_validated` delivery pass
(sender.py lines 45-96): POST each buffered batch once; batches whose delivery
fails are collected, in order, as the new buffer, and delivered batches are
removed.  `deliver b` is the outcome of this tick's POST for batch `b`. -/
def sendBuffered {β : Type} (deliver : β → Bool) : List β → List β
  | [] => []
  | b :: bs =>
      if deliver b then sendBuffered deliver bs else b :: sendBuffered deliver bs

/-- One `GENERATE`-phase tick of `Sender.run` (sender.py lines 144-148): drain
the generation queue, merge the drained batches into one `ProofBatch`, append
it to the retry buffer when nonempty, then attempt delivery of the whole
buffer. -/
def senderGenerateTick (deliver : ProofBatch → Bool)
    (buffer incoming : List ProofBatch) : List ProofBatch :=
  let generated := ProofBatch.merge incoming
  let buffer2 := if 0 < generated.nonces.length then buffer ++ [generated] else buffer
  sendBuffered deliver buffer2

/-- One `VALIDATE`-phase tick of `Sender.run` (sender.py lines 150-156):
extend the validated retry buffer with the accumulators that became ready,
then attempt delivery of the whole buffer. -/
def senderValidateTick (deliver : ValidatedBatch → Bool)
    (buffer ready : List ValidatedBatch) : List ValidatedBatch :=
  sendBuffered deliver (buffer ++ ready)

lemma sendBuffered_eq_filter {β : Type} (deliver : β → Bool) (l : List β) :
    sendBuffered deliver l = l.filter (fun b => !deliver b) := by
  induction l with
  | nil => rfl
  | cons b bs ih =>
      by_cases h : deliver b <;> simp [sendBuffered, h, ih]

/-- C8: the Sender never drops a batch on delivery failure.  After any
delivery pass the buffer is exactly the batches whose delivery failed, in
order; a batch whose delivery fails stays in the buffer for the next tick, and
a batch leaves the buffer only after a successful delivery — for the generated
(`POST .../generated`) and the validated (`POST .../validated`) paths alike,
including the freshly merged batch of a generate tick. -/
theorem sender_retry_buffer (deliverG : ProofBatch → Bool)
    (bufG incoming : List ProofBatch)
    (deliverV : ValidatedBatch → Bool) (bufV ready : List ValidatedBatch) :
    sendBuffered deliverG bufG = bufG.filter (fun b => !deliverG b) ∧
    (∀ b ∈ bufG, deliverG b = false → b ∈ sendBuffered deliverG bufG) ∧
    (∀ b ∈ bufG, b ∉ sendBuffered deliverG bufG → deliverG b = true) ∧
    (0 < (ProofBatch.merge incoming).nonces.length →
      deliverG (ProofBatch.merge incoming) = false →
      ProofBatch.merge incoming ∈ senderGenerateTick deliverG bufG incoming) ∧
    (∀ b ∈ bufV ++ ready, deliverV b = false →
      b ∈ senderValidateTick deliverV bufV ready) ∧
    (∀ b ∈ bufV ++ ready, b ∉ senderValidateTick deliverV bufV ready →
      deliverV b = true) := by
  refine ⟨sendBuffered_eq_filter deliverG bufG, ?_, ?_, ?_, ?_, ?_⟩
  · intro b hb hf
    rw [sendBuffered_eq_filter]
    exact List.mem_filter.mpr ⟨hb, by simp [hf]⟩
  · intro b hb hnot
    by_contra h
    exact hnot (by
      rw [sendBuffered_eq_filter]
      exact List.mem_filter.mpr ⟨hb, by simp [Bool.eq_false_iff.mpr h]⟩)
  · intro hlen hf
    unfold senderGenerateTick
    simp only [hlen, if_pos]
    rw [sendBuffered_eq_filter]
    exact List.mem_filter.mpr ⟨by simp, by simp [hf]⟩
  · intro b hb hf
    unfold senderValidateTick
    rw [sendBuffered_eq_filter]
    exact List.mem_filter.mpr ⟨hb, by simp [hf]⟩
  · intro b hb hnot
    by_contra h
    refine hnot ?_
    unfold senderValidateTick
    rw [sendBuffered_eq_filter]
    exact List.mem_filter.mpr ⟨hb, by simp [Bool.eq_false_iff.mpr h]⟩

/-- Witness for C8: with every delivery failing, a concrete buffered batch is
still in the buffer after the send pass. -/
theorem sender_retry_buffer_witness :
    sampleBatch ∈ [sampleBatch] ∧ (fun (_ : ProofBatch) => false) sampleBatch = false ∧
    sampleBatch ∈ sendBuffered (fun _ => false) [sampleBatch] :=
  ⟨List.mem_singleton.mpr rfl, rfl,
    (sender_retry_buffer (fun _ => false) [sampleBatch] []
        (fun _ => false) [] []).2.1 sampleBatch (List.mem_singleton.mpr rfl) rfl⟩

/-! ## Delegation sessions (`pow/service/delegation/server.py`, `types.py`) -/

/-- Status of a delegation session (`pow/service/delegation/types.py`
lines 13-19). -/
inductive DelegationStatus
  | INITIALIZING
  | GENERATING
  | STOPPED
  | EXPIRED
  | ERROR
  deriving DecidableEq, Repr

/-- Session timeout in seconds (server.py line 26).  Timestamps are modelled
as integral seconds. -/
def SESSION_TIMEOUT : ℤ := 330

/-- The state of one `DelegationSession` (server.py lines 29-53) relevant to
expiry and capacity.  `controller_running = some r` means a
`ParallelController` exists and `is_running()` returns `r`; `none` means no
controller was created yet. -/
structure DelegationSession where
  session_id : String
  created_at : ℤ
  status : DelegationStatus
  controller_running : Option Bool
  deriving DecidableEq, Repr

/-- `DelegationSession.is_expired` (server.py lines 88-107): expired when more
than `SESSION_TIMEOUT` seconds elapsed since creation, or when a controller
exists and is not running. -/
def DelegationSession.is_expired (s : DelegationSession) (now : ℤ) : Bool :=
  decide (SESSION_TIMEOUT < now - s.created_at) ||
    (match s.controller_running with
     | some r => !r
     | none => false)

/-- `DelegationSession.stop` (server.py lines 192-202): set status `STOPPED`
and stop the controller (after which it no longer runs). -/
def DelegationSession.stop (s : DelegationSession) : DelegationSession :=
  { s with status := DelegationStatus.STOPPED,
           controller_running := s.controller_running.map (fun _ => false) }

/-- `DelegationManager` state (server.py lines 224-247): the auth token, the
session capacity, and the session dictionary (a key-unique association
list). -/
structure DelegationManager where
  auth_token : String
  max_sessions : ℕ
  sessions : List (String × DelegationSession)
  deriving DecidableEq, Repr

/-- `DelegationManager.cleanup_expired` (server.py lines 386-409): remove
every expired session from the manager and stop each one; returns the new
manager state together with the stopped sessions. -/
def DelegationManager.cleanup_expired (m : DelegationManager) (now : ℤ) :
    DelegationManager × List DelegationSession :=
  ({ m with sessions := m.sessions.filter (fun p => !p.2.is_expired now) },
   (m.sessions.filter (fun p => p.2.is_expired now)).map (fun p => p.2.stop))

/-- A session created 400 seconds before the sweep, still generating. -/
def staleSession : DelegationSession :=
  { session_id := "s0", created_at := 0, status := DelegationStatus.GENERATING,
    controller_running := some true }

/-- A manager holding only `staleSession`. -/
def staleManager : DelegationManager :=
  { auth_token := "tok", max_sessions := 10, sessions := [("s0", staleSession)] }

/-- Counterexample to C4: at `now = 400` the session is expired (age 400 >
330), and the cleanup sweep stops it — the resulting status is `STOPPED`, not
`EXPIRED`; no code path ever assigns `EXPIRED`. -/
theorem cleanup_does_not_mark_expired :
    staleSession.is_expired 400 = true ∧
    (staleManager.cleanup_expired 400).2.map DelegationSession.status
        = [DelegationStatus.STOPPED] ∧
    DelegationStatus.STOPPED ≠ DelegationStatus.EXPIRED := by
  refine ⟨by decide, ?_, by decide⟩
  rfl

/-- C4 (amended): a session is expired exactly when its age exceeds
`SESSION_TIMEOUT` (330 s) or its controller is no longer running; the periodic
cleanup sweep removes every expired session from the manager and stops it,
leaving its status `STOPPED` (not `EXPIRED`), and keeps every non-expired
session untouched. -/
theorem cleanup_expired_sweep (m : DelegationManager) (now : ℤ) (sid : String)
    (s : DelegationSession) (hmem : (sid, s) ∈ m.sessions) :
    (s.is_expired now = true ↔
      (SESSION_TIMEOUT < now - s.created_at ∨ s.controller_running = some false)) ∧
    (s.is_expired now = true →
      (sid, s) ∉ (m.cleanup_expired now).1.sessions ∧
      s.stop ∈ (m.cleanup_expired now).2 ∧
      s.stop.status = DelegationStatus.STOPPED) ∧
    (s.is_expired now = false → (sid, s) ∈ (m.cleanup_expired now).1.sessions) := by
  refine ⟨?_, ?_, ?_⟩
  · unfold DelegationSession.is_expired
    cases h : s.controller_running with
    | none => simp [h]
    | some r => cases r <;> simp [h]
  · intro hexp
    refine ⟨?_, ?_, rfl⟩
    · intro hmem2
      have := (List.mem_filter.mp hmem2).2
      simp [hexp] at this
    · exact List.mem_map.mpr ⟨(sid, s), List.mem_filter.mpr ⟨hmem, by simp [hexp]⟩, rfl⟩
  · intro hexp
    exact List.mem_filter.mpr ⟨hmem, by simp [hexp]⟩

/-- Witness for C4 (amended) at the concrete stale session. -/
theorem cleanup_expired_sweep_witness :
    ("s0", staleSession) ∈ staleManager.sessions ∧
    ((staleSession.is_expired 400 = true ↔
       (SESSION_TIMEOUT < 400 - staleSession.created_at ∨
         staleSession.controller_running = some false)) ∧
     (staleSession.is_expired 400 = true →
       ("s0", staleSession) ∉ (staleManager.cleanup_expired 400).1.sessions ∧
       staleSession.stop ∈ (staleManager.cleanup_expired 400).2 ∧
       staleSession.stop.status = DelegationStatus.STOPPED) ∧
     (staleSession.is_expired 400 = false →
       ("s0", staleSession) ∈ (staleManager.cleanup_expired 400).1.sessions)) :=
  ⟨List.mem_singleton.mpr rfl,
    cleanup_expired_sweep staleManager 400 "s0" staleSession
      (List.mem_singleton.mpr rfl)⟩

/-- A status counting as active for the capacity check
(server.py lines 283-286: `INITIALIZING` or `GENERATING`). -/
def DelegationStatus.isActive : DelegationStatus → Bool
  | .INITIALIZING => true
  | .GENERATING => true
  | _ => false

/-- Number of active sessions, as counted by
`DelegationManager.create_session` (server.py lines 282-287). -/
def DelegationManager.activeCount (m : DelegationManager) : ℕ :=
  (m.sessions.filter (fun p => p.2.status.isActive)).length

/-- Outcome of `DelegationManager.create_session`. -/
inductive CreateSessionResult
  | created (sid : String)
  | authError
  | capacityError
  | startError
  deriving DecidableEq, Repr

/-- `DelegationManager.create_session` (server.py lines 261-315): validate the
token; reject when the number of active sessions has reached `max_sessions`;
otherwise insert a fresh session and start generation — on success the session
is `GENERATING` with a running controller, on failure the session is removed
again and the error propagates.  `sid` stands for the generated uuid and
`startOk` for whether `start_generation()` succeeds. -/
def DelegationManager.create_session (m : DelegationManager) (token sid : String)
    (now : ℤ) (startOk : Bool) : DelegationManager × CreateSessionResult :=
  if token ≠ m.auth_token then (m, .authError)
  else if m.max_sessions ≤ m.activeCount then (m, .capacityError)
  else if startOk then
    ({ m with sessions := m.sessions ++
        [(sid, { session_id := sid, created_at := now,
                 status := DelegationStatus.GENERATING,
                 controller_running := some true })] },
     .created sid)
  else (m, .startError)

/-- `DelegationManager.stop_session` (server.py lines 357-384): validate the
token, look the session up, and stop it in place; returns whether a session
was stopped. -/
def DelegationManager.stop_session (m : DelegationManager) (sid token : String) :
    DelegationManager × Bool :=
  if token ≠ m.auth_token then (m, false)
  else if (m.sessions.filter (fun p => decide (p.1 = sid))).isEmpty then (m, false)
  else
    ({ m with sessions :=
        m.sessions.map (fun p => if p.1 = sid then (p.1, p.2.stop) else p) },
     true)

lemma map_stop_id_of_not_mem (sid : String) (l : List (String × DelegationSession))
    (h : sid ∉ l.map Prod.fst) :
    l.map (fun p => if p.1 = sid then (p.1, p.2.stop) else p) = l := by
  induction l with
  | nil => rfl
  | cons q l ih =>
      simp only [List.map_cons, List.mem_cons] at h ⊢
      have hq : q.1 ≠ sid := fun hc => h (Or.inl hc.symm)
      rw [if_neg hq, ih (fun hc => h (Or.inr hc))]

lemma countActive_stop_lt (sid : String) (s : DelegationSession)
    (l : List (String × DelegationSession)) (hnodup : (l.map Prod.fst).Nodup)
    (hmem : (sid, s) ∈ l) (hact : s.status.isActive = true) :
    ((l.map (fun p => if p.1 = sid then (p.1, p.2.stop) else p)).filter
        (fun p => p.2.status.isActive)).length
      < (l.filter (fun p => p.2.status.isActive)).length := by
  induction l with
  | nil => simp at hmem
  | cons q l ih =>
      simp only [List.map_cons, List.nodup_cons] at hnodup
      rcases List.mem_cons.mp hmem with heq | hmem'
      · subst heq
        have hmap : ((sid, s) :: l).map (fun p => if p.1 = sid then (p.1, p.2.stop) else p)
            = (sid, s.stop) :: l := by
          rw [List.map_cons, map_stop_id_of_not_mem sid l hnodup.1]
          congr 1
          simp
        rw [hmap, List.filter_cons, List.filter_cons]
        have h1 : (sid, s.stop).2.status.isActive = false := rfl
        have h2 : (sid, s).2.status.isActive = s.status.isActive := rfl
        simp [h1, h2, hact]
      · have hq : q.1 ≠ sid := by
          intro hc
          exact hnodup.1 (hc ▸ (List.mem_map.mpr ⟨(sid, s), hmem', rfl⟩))
        simp only [List.map_cons, if_neg hq, List.filter_cons]
        have := ih hnodup.2 hmem'
        by_cases hqa : q.2.status.isActive = true <;>
          simp [hqa] <;> omega

/-- C6: with a valid auth token, a start request arriving while the manager
already has `max_sessions` active sessions is rejected with the capacity error
and leaves the session table unchanged; and once an active session is stopped
(the session keys being unique, and the manager previously at or below
capacity), the active count strictly drops so that a subsequent start request
succeeds. -/
theorem delegation_capacity (m : DelegationManager) (token sid sid2 : String)
    (now now2 : ℤ) (startOk : Bool) (s : DelegationSession)
    (htok : token = m.auth_token) :
    (m.max_sessions ≤ m.activeCount →
      m.create_session token sid now startOk = (m, CreateSessionResult.capacityError)) ∧
    ((m.sessions.map Prod.fst).Nodup → (sid, s) ∈ m.sessions →
      s.status.isActive = true → m.activeCount ≤ m.max_sessions →
      (m.stop_session sid token).1.activeCount < m.activeCount ∧
      ((m.stop_session sid token).1.create_session token sid2 now2 true).2
        = CreateSessionResult.created sid2) := by
  constructor
  · intro hcap
    unfold DelegationManager.create_session
    rw [if_neg (by simp [htok]), if_pos hcap]
  · intro hnodup hmem hact hcap
    have hfilter : ¬(m.sessions.filter (fun p => decide (p.1 = sid))).isEmpty = true := by
      rw [List.isEmpty_iff]
      intro hnil
      have : (sid, s) ∈ m.sessions.filter (fun p => decide (p.1 = sid)) :=
        List.mem_filter.mpr ⟨hmem, by simp⟩
      rw [hnil] at this
      simp at this
    have hstop : (m.stop_session sid token).1 =
        { m with sessions :=
            m.sessions.map (fun p => if p.1 = sid then (p.1, p.2.stop) else p) } := by
      unfold DelegationManager.stop_session
      rw [if_neg (by simp [htok]), if_neg hfilter]
    have hlt : (m.stop_session sid token).1.activeCount < m.activeCount := by
      rw [hstop]
      exact countActive_stop_lt sid s m.sessions hnodup hmem hact
    refine ⟨hlt, ?_⟩
    unfold DelegationManager.create_session
    have hauth : (m.stop_session sid token).1.auth_token = m.auth_token := by
      rw [hstop]
    have hmax : (m.stop_session sid token).1.max_sessions = m.max_sessions := by
      rw [hstop]
    rw [if_neg (fun hne => hne (htok.trans hauth.symm)),
      if_neg (by rw [hmax]; omega), if_pos rfl]

/-- A manager at capacity: one active session, `max_sessions = 1`. -/
def fullManager : DelegationManager :=
  { auth_token := "tok", max_sessions := 1,
    sessions := [("s0",
      { session_id := "s0", created_at := 0,
        status := DelegationStatus.GENERATING, controller_running := some true })] }

/-- Witness for C6 at `fullManager`: the extra start is rejected with the
capacity error, and after stopping the active session a new start succeeds. -/
theorem delegation_capacity_witness :
    fullManager.create_session "tok" "s1" 10 true
        = (fullManager, CreateSessionResult.capacityError) ∧
    (fullManager.stop_session "s0" "tok").1.activeCount < fullManager.activeCount ∧
    ((fullManager.stop_session "s0" "tok").1.create_session "tok" "s1" 10 true).2
        = CreateSessionResult.created "s1" :=
  ⟨(delegation_capacity fullManager "tok" "s1" "s1" 10 10 true
        (DelegationSession.mk "s0" 0 DelegationStatus.GENERATING (some true))
        rfl).1 (by decide),
    (delegation_capacity fullManager "tok" "s0" "s1" 10 10 true
        (DelegationSession.mk "s0" 0 DelegationStatus.GENERATING (some true))
        rfl).2 (by decide) (List.mem_singleton.mpr rfl) (by decide) (by decide)⟩

/-! ## PowManager.init in delegation mode (`pow/service/manager.py`,
`pow/service/sender.py`) -/

/-- The parameter names accepted by `Sender.__init__` besides `self`
(sender.py lines 21-30); the signature has no `**kwargs`. -/
def senderInitParams : List String :=
  ["url", "generation_queue", "validation_queue", "phase", "r_target",
   "fraud_threshold"]

/-- The keyword arguments `PowManager.init` passes when constructing the
`Sender` in its delegation branch (manager.py lines 135-143). -/
def delegationSenderKeywords : List String :=
  ["url", "generation_queue", "validation_queue", "phase", "r_target",
   "fraud_threshold", "using_delegation"]

/-- Membership test on parameter-name lists. -/
def containsName : List String → String → Bool
  | [], _ => false
  | x :: xs, k => if x = k then true else containsName xs k

/-- Python call semantics: the keywords of a call that are not among the
callee's parameters.  A nonempty result makes the call raise `TypeError`
("got an unexpected keyword argument") before the callee body runs. -/
def unexpectedKeywords (params kwargs : List String) : List String :=
  kwargs.filter (fun k => !containsName params k)

/-- How `PowManager.init` terminates. -/
inductive InitOutcome
  | ok
  | valueError (param : String)
  | typeError (keyword : String)
  deriving DecidableEq, Repr

/-- Result of `PowManager.init`: the outcome, and which components were
started during `init` (components are only constructed in `init`; starting
happens later in `PowManager._start`, and an exception aborts `init` before
anything runs). -/
structure InitResult where
  outcome : InitOutcome
  startedComponents : List String
  deriving DecidableEq, Repr

/-- `PowManager.init` (manager.py lines 68-170).  With delegation enabled it
resolves the delegation URL and auth token (environment first, then request;
missing values raise `ValueError`), constructs the `DelegationClient` and the
local validation `ParallelController`, and then constructs the `Sender` with
`delegationSenderKeywords` — whose first unexpected keyword raises
`TypeError`.  Without delegation it constructs the local controller and a
`Sender` with only the accepted keywords. -/
def powManagerInit (delegationEnabled : Bool)
    (envUrl envToken reqUrl reqToken : Option String) : InitResult :=
  if delegationEnabled then
    match envUrl <|> reqUrl with
    | none => { outcome := .valueError "DELEGATION_URL", startedComponents := [] }
    | some _ =>
        match envToken <|> reqToken with
        | none =>
            { outcome := .valueError "DELEGATION_AUTH_TOKEN",
              startedComponents := [] }
        | some _ =>
            match unexpectedKeywords senderInitParams delegationSenderKeywords with
            | [] => { outcome := .ok, startedComponents := [] }
            | k :: _ => { outcome := .typeError k, startedComponents := [] }
  else { outcome := .ok, startedComponents := [] }

/-- C5: whenever delegation is enabled and a delegation URL and auth token are
available (from the environment or the request), `PowManager.init` raises
`TypeError` on the unexpected `using_delegation` keyword of the `Sender`
construction, and no component is started. -/
theorem delegation_init_type_error (envUrl envToken reqUrl reqToken : Option String)
    (hurl : (envUrl <|> reqUrl).isSome = true)
    (htok : (envToken <|> reqToken).isSome = true) :
    (powManagerInit true envUrl envToken reqUrl reqToken).outcome
        = InitOutcome.typeError "using_delegation" ∧
    (powManagerInit true envUrl envToken reqUrl reqToken).startedComponents = [] := by
  obtain ⟨u, hu⟩ := Option.isSome_iff_exists.mp hurl
  obtain ⟨t, ht⟩ := Option.isSome_iff_exists.mp htok
  have hkw : unexpectedKeywords senderInitParams delegationSenderKeywords
      = ["using_delegation"] := by decide
  unfold powManagerInit
  rw [if_pos rfl, hu, ht, hkw]
  exact ⟨rfl, rfl⟩

/-- Witness for C5 with a concrete delegation URL and token from the
environment. -/
theorem delegation_init_type_error_witness :
    ((some "http://big-node:9090" <|> (none : Option String)).isSome = true) ∧
    ((some "secret" <|> (none : Option String)).isSome = true) ∧
    ((powManagerInit true (some "http://big-node:9090") (some "secret")
          none none).outcome = InitOutcome.typeError "using_delegation" ∧
     (powManagerInit true (some "http://big-node:9090") (some "secret")
          none none).startedComponents = []) :=
  ⟨rfl, rfl,
    delegation_init_type_error (some "http://big-node:9090") (some "secret")
      none none rfl rfl⟩

/-! ## Controller.stop teardown (`pow/compute/controller.py`) -/

/-- Graceful-termination timeout in seconds (controller.py line 22). -/
def TERMINATION_TIMEOUT : ℕ := 10

/-- An OS process of the worker's tree as it behaves during teardown: whether
it ignores SIGTERM, and how many seconds after SIGTERM it needs in order to
exit when it honors the signal. -/
structure Proc where
  ignoresTerm : Bool
  termExitTime : ℕ
  deriving DecidableEq, Repr

/-- A Controller's worker process with its descendant processes, and whether
the worker process is alive when `stop()` is called. -/
structure WorkerTree where
  workerAlive : Bool
  worker : Proc
  children : List Proc
  deriving DecidableEq, Repr

/-- The snapshot `processes = parent.children(recursive=True) + [parent]`
taken by `Controller.stop` (controller.py line 135). -/
def WorkerTree.procs (t : WorkerTree) : List Proc := t.children ++ [t.worker]

/-- Whether a process is still alive after SIGTERM was sent to the whole tree
and `psutil.wait_procs(processes, timeout=TERMINATION_TIMEOUT)` returned
(controller.py lines 137-147): it ignored the signal or did not exit within
the timeout. -/
def aliveAfterWait (p : Proc) : Bool :=
  p.ignoresTerm || decide (TERMINATION_TIMEOUT < p.termExitTime)

/-- Final state of a snapshot process once `Controller.stop` has finished:
survivors of the graceful wait are force-killed (`proc.kill()`, an unignorable
SIGKILL, controller.py lines 149-154); the rest already exited. -/
inductive ProcFate
  | exitedGracefully
  | forceKilled
  deriving DecidableEq, Repr

def procFate (p : Proc) : ProcFate :=
  if aliveAfterWait p then .forceKilled else .exitedGracefully

/-- Whether a process is alive after `Controller.stop` ran: SIGKILL cannot be
ignored, so neither fate leaves the process running. -/
def aliveAfterStop (p : Proc) : Bool :=
  match procFate p with
  | .exitedGracefully => false
  | .forceKilled => false

/-- Observable result of `Controller.stop`. -/
structure StopResult where
  elapsed : ℕ
  liveDescendants : List Proc
  joined : Bool
  deriving DecidableEq, Repr

/-- `Controller.stop` (controller.py lines 124-163) in a discrete-time model:
signal delivery and `kill()` are immediate, `wait_procs` returns as soon as
every snapshot process has exited (at the latest after `TERMINATION_TIMEOUT`
seconds), and `process.join(timeout=TERMINATION_TIMEOUT)` of the by-then dead
worker returns immediately (the reap).  When the worker process is already
dead, `stop` returns at once without signalling anything (lines 125-127). -/
def controllerStop (t : WorkerTree) : StopResult :=
  if !t.workerAlive then
    { elapsed := 0, liveDescendants := t.children, joined := false }
  else
    { elapsed :=
        if t.procs.all (fun p => !p.ignoresTerm) then
          min TERMINATION_TIMEOUT ((t.procs.map Proc.termExitTime).foldr max 0)
        else TERMINATION_TIMEOUT,
      liveDescendants := t.procs.filter aliveAfterStop,
      joined := true }

/-- C9: for a live worker process, `Controller.stop()` leaves no live process
of the snapshot tree — every process either exits on SIGTERM within the
bounded wait or is force-killed, even if it ignores graceful termination —
always reaps (joins) the worker, and returns within `TERMINATION_TIMEOUT`. -/
theorem controller_stop_teardown (t : WorkerTree) (halive : t.workerAlive = true) :
    (controllerStop t).liveDescendants = [] ∧
    (∀ p ∈ t.procs, aliveAfterStop p = false) ∧
    (controllerStop t).joined = true ∧
    (controllerStop t).elapsed ≤ TERMINATION_TIMEOUT := by
  have hdead : ∀ p : Proc, aliveAfterStop p = false := by
    intro p
    unfold aliveAfterStop
    cases hf : procFate p <;> rfl
  have hstop : controllerStop t =
      { elapsed :=
          if t.procs.all (fun p => !p.ignoresTerm) then
            min TERMINATION_TIMEOUT ((t.procs.map Proc.termExitTime).foldr max 0)
          else TERMINATION_TIMEOUT,
        liveDescendants := t.procs.filter aliveAfterStop,
        joined := true } := by
    unfold controllerStop
    rw [halive]
    rfl
  refine ⟨?_, fun p _ => hdead p, ?_, ?_⟩
  · rw [hstop]
    exact List.filter_eq_nil_iff.mpr (fun p _ => by simp [hdead p])
  · rw [hstop]
  · rw [hstop]
    by_cases hall : t.procs.all (fun p => !p.ignoresTerm) = true
    · simp only [hall, if_true]
      exact Nat.min_le_left _ _
    · rw [if_neg hall]

/-- Witness for C9: a worker that ignores SIGTERM together with one child
that honors it slowly. -/
theorem controller_stop_teardown_witness :
    (WorkerTree.mk true (Proc.mk true 0) [Proc.mk false 3]).workerAlive = true ∧
    ((controllerStop (WorkerTree.mk true (Proc.mk true 0)
          [Proc.mk false 3])).liveDescendants = [] ∧
     (∀ p ∈ (WorkerTree.mk true (Proc.mk true 0) [Proc.mk false 3]).procs,
        aliveAfterStop p = false) ∧
     (controllerStop (WorkerTree.mk true (Proc.mk true 0)
          [Proc.mk false 3])).joined = true ∧
     (controllerStop (WorkerTree.mk true (Proc.mk true 0)
          [Proc.mk false 3])).elapsed ≤ TERMINATION_TIMEOUT) :=
  ⟨rfl, controller_stop_teardown
    (WorkerTree.mk true (Proc.mk true 0) [Proc.mk false 3]) rfl⟩

/-! ## GPU grouping (`pow/compute/gpu_group.py`) -/

/-- Modelled from the spec: `create_gpu_groups` of `pow/compute/gpu_group.py`
is absent from `src/`; its behavior is pinned by the unit tests in
`tests/unit/test_gpu_groups.py` (`TestCreateGpuGroups`), which this embedding
reproduces (see `create_gpu_groups_matches_unit_tests`).  VRAM amounts are
modelled as integral GB (every tested value is integral).  `findGroupSize`
searches group sizes 1, 2, 4, 8, … (doubling) for the smallest count of
consecutive devices, starting at the current device, whose cumulative VRAM
meets the threshold; fuel makes the doubling recursion structural. -/
def findGroupSize (minv : ℤ) (vrams : List ℤ) : ℕ → ℕ → Option ℕ
  | 0, _ => none
  | fuel + 1, size =>
      if vrams.length < size then none
      else if minv ≤ (vrams.take size).sum then some size
      else findGroupSize minv vrams fuel (2 * size)

/-- Group the devices in index order: pack the current device into the
smallest qualifying group of consecutive devices, then continue after it;
`none` (the `NotEnoughGPUResources` exception) when no size works for the
current device. -/
def groupDevices (minv : ℤ) : ℕ → List (ℕ × ℤ) → Option (List (List ℕ))
  | 0, _ => none
  | _, [] => some []
  | fuel + 1, devs =>
      match findGroupSize minv (devs.map Prod.snd) (devs.length + 1) 1 with
      | none => none
      | some size =>
          match groupDevices minv fuel (devs.drop size) with
          | none => none
          | some rest => some ((devs.take size).map Prod.fst :: rest)

/-- Modelled from the spec: `create_gpu_groups(min_vram_gb)` — zero devices
fail (`NotEnoughGPUResources`, "No CUDA devices found"); otherwise devices are
grouped smallest-group-first in index order, and a device left ungroupable
fails ("Not enough GPU memory").  `none` models the raised exception. -/
def create_gpu_groups (vrams : List ℤ) (minv : ℤ) : Option (List (List ℕ)) :=
  if vrams.isEmpty then none
  else groupDevices minv (vrams.length + 1) vrams.enum

/-- One doubling stage of the algorithm exactly as the claim words it: scan
the remaining devices in index order and greedily form groups of exactly
`size` consecutive devices whose cumulative VRAM meets the threshold,
collecting the devices that fit no group as leftovers. -/
def packSize (minv : ℤ) (size : ℕ) : ℕ → List (ℕ × ℤ) → List (List ℕ) × List (ℕ × ℤ)
  | 0, devs => ([], devs)
  | fuel + 1, devs =>
      if devs.length < size then ([], devs)
      else if minv ≤ ((devs.take size).map Prod.snd).sum then
        let r := packSize minv size fuel (devs.drop size)
        ((devs.take size).map Prod.fst :: r.1, r.2)
      else
        let r := packSize minv size fuel devs.tail
        (r.1, devs.take 1 ++ r.2)

/-- All doubling stages (sizes `size, 2*size, 4*size, …`) of the claim's
algorithm, threaded over the leftovers of each stage. -/
def packDoubling (minv : ℤ) : ℕ → ℕ → List (ℕ × ℤ) → List (List ℕ) × List (ℕ × ℤ)
  | 0, _, devs => ([], devs)
  | fuel + 1, size, devs =>
      if devs.length < size then ([], devs)
      else
        let r := packSize minv size devs.length devs
        let r2 := packDoubling minv fuel (2 * size) r.2
        (r.1 ++ r2.1, r2.2)

/-- The grouping algorithm exactly as claim C10 (and spec §4.2) words it:
first every device with `vram ≥ min_vram_gb` becomes a singleton group; the
remaining devices are then packed, in index order, into groups of doubling
sizes 2, 4, 8, … whose cumulative VRAM meets the threshold; devices left over
after all sizes are exhausted make the call fail. -/
def create_gpu_groups_claimed (vrams : List ℤ) (minv : ℤ) :
    Option (List (List ℕ)) :=
  if vrams.isEmpty then none
  else
    let devs := vrams.enum
    let singles := devs.filter (fun d => decide (minv ≤ d.2))
    let rest := devs.filter (fun d => !decide (minv ≤ d.2))
    let packed := packDoubling minv (vrams.length + 1) 2 rest
    if packed.2.isEmpty then some (singles.map (fun d => [d.1]) ++ packed.1)
    else none

/-- The embedded grouping reproduces every concrete grouping expectation of
`tests/unit/test_gpu_groups.py::TestCreateGpuGroups`. -/
lemma create_gpu_groups_matches_unit_tests :
    create_gpu_groups [24] 23 = some [[0]] ∧
    create_gpu_groups [16] 23 = none ∧
    create_gpu_groups [24, 24, 24, 24] 23 = some [[0], [1], [2], [3]] ∧
    create_gpu_groups [12, 12, 12, 12] 23 = some [[0, 1], [2, 3]] ∧
    create_gpu_groups [6, 6, 6, 6, 6, 6, 6, 6] 23
        = some [[0, 1, 2, 3], [4, 5, 6, 7]] ∧
    create_gpu_groups [24, 12, 12] 23 = some [[0], [1, 2]] ∧
    create_gpu_groups [24, 8, 8, 8, 8, 12, 24, 24] 23
        = some [[0], [1, 2, 3, 4], [5, 6], [7]] ∧
    create_gpu_groups [10, 10, 10, 10] 41 = none := by
  decide

/-- Counterexample to C10: on the repository's own unit-test input of
`test_mixed_vram_complex` (VRAM `[24,8,8,8,8,12,24,24]`, threshold 23, expected
grouping `[[0],[1,2,3,4],[5,6],[7]]`), the algorithm as worded by the claim —
singleton groups first for every device meeting the threshold — produces no
grouping at all (device 5 is left over once devices 6 and 7 are singletons),
whereas the grouping pinned by the tests pairs device 6 (24 GB ≥ 23) with
device 5. -/
theorem gpu_grouping_claimed_refuted :
    create_gpu_groups [24, 8, 8, 8, 8, 12, 24, 24] 23
        = some [[0], [1, 2, 3, 4], [5, 6], [7]] ∧
    create_gpu_groups_claimed [24, 8, 8, 8, 8, 12, 24, 24] 23 = none ∧
    create_gpu_groups_claimed [24, 8, 8, 8, 8, 12, 24, 24] 23
        ≠ create_gpu_groups [24, 8, 8, 8, 8, 12, 24, 24] 23 := by
  decide

/-- C10 (amended): GPU grouping is a deterministic function of the VRAM vector
and threshold following the consecutive smallest-group-first algorithm — scan
devices in index order and pack the current device into the smallest group of
1, 2, 4, 8, … consecutive devices whose cumulative VRAM meets the threshold
(a device above the threshold therefore becomes a singleton only when not
swallowed by an earlier group) — so `[24,24,24,24]` with `min_vram_gb = 23`
groups as `[[0],[1],[2],[3]]`, `[12,12,12,12]` as `[[0,1],[2,3]]`, and
`[10,10,10,10]` with `min_vram_gb = 41`, or an empty device list, raises
`NotEnoughGPUResources`. -/
theorem gpu_grouping (minv : ℤ) :
    create_gpu_groups [24, 24, 24, 24] 23 = some [[0], [1], [2], [3]] ∧
    create_gpu_groups [12, 12, 12, 12] 23 = some [[0, 1], [2, 3]] ∧
    create_gpu_groups [10, 10, 10, 10] 41 = none ∧
    create_gpu_groups [] minv = none :=
  ⟨by decide, by decide, by decide, rfl⟩

end PowSpec
